import Mathlib

/-!
Verification of the onomondo-traffic CLI (src/index.js) against its
specification.

Modelling conventions (shallow embedding):
* Instants are minutes since the Unix epoch, as `Nat`.  The program pins
  `TZ = UTC` (index.js:3) and object keys embed time at minute
  granularity (pattern `yyyy/MM/dd/HH/mm`, index.js:375), so minute
  resolution is exactly the resolution the discovery logic observes.
* A UTC calendar day is 1440 minutes; the `yyyy/MM/dd` key prefix of an
  instant `t` is its day number `t / 1440`; `startOfDay (addDays t 1)`
  is `(t / 1440 + 1) * 1440`.
* A storage backend is a function `bucket : Nat → List PcapObject`
  mapping a day prefix to the objects listed under it; one application
  of `bucket` is one backend listing call.  Prefix-listing consistency
  ("an object listed under day prefix d has its embedded timestamp on
  day d") is an explicit hypothesis `∀ d o, o ∈ bucket d → o.ts / 1440 = d`.
* The effectful orchestration (`run`, `exit`, child processes) is
  embedded as a trace of observable events (`mainTrace`).
-/

namespace Onomondo

/-- A stored pcap object as the discovery logic sees it: `ts` is the
timestamp embedded in the storage key (minutes since epoch, parsed in
index.js:375 with `parse` applied to the key cut before `.pcap` and before the first dash, with pattern `yyyy/MM/dd/HH/mm`), `size` is the object size in bytes
(S3 `Size` / blob `properties.contentLength`). -/
structure PcapObject where
  ts : Nat
  size : Nat
  deriving DecidableEq, Repr

/-- index.js:374-378 `isInRange`: keep a file whose embedded timestamp
lies strictly between `from` and `to` (`from < date && date < to`). -/
def isInRange (fromT toT ts : Nat) : Bool :=
  decide (fromT < ts) && decide (ts < toT)

/-- index.js:333/356 `startOfDay(addDays(from, 1))`: midnight of the
next UTC day. -/
def startOfNextDay (fromT : Nat) : Nat :=
  (fromT / 1440 + 1) * 1440

/-- index.js:346-360 `getListOfAllPcapFilesOnS3Recursive` (the blob
variant at 320-337 is identical modulo the backend): if `from > to`
stop; otherwise issue one listing call for the day prefix of `from`, keep
the objects passing `isInRange`, and recurse from the midnight of the next day.  The recursion advances exactly one calendar day per step, so
structural fuel (one unit per day, see `fuelFor`) makes it total; the
second component records the day prefix of every listing call issued,
in order. -/
def listRecFuel (bucket : Nat → List PcapObject) (toT : Nat) :
    Nat → Nat → List PcapObject × List Nat
  | _, 0 => ([], [])
  | fromT, fuel + 1 =>
    if toT < fromT then ([], [])
    else
      let day := fromT / 1440
      let filesInRange := (bucket day).filter fun o => isInRange fromT toT o.ts
      let next := listRecFuel bucket toT (startOfNextDay fromT) fuel
      (filesInRange ++ next.1, day :: next.2)

/-- Enough fuel for `listRecFuel`: one unit per calendar day from
the day of `from` through the day of `to`. -/
def fuelFor (fromT toT : Nat) : Nat := toT / 1440 + 1 - fromT / 1440

/-- The object set returned by the recursive day-bucketed lister
(index.js:346-360 / 320-337). -/
def getListOfAllPcapFilesOnS3Recursive (bucket : Nat → List PcapObject)
    (fromT toT : Nat) : List PcapObject :=
  (listRecFuel bucket toT fromT (fuelFor fromT toT)).1

/-- The day prefixes of the backend listing calls the recursive lister
issues, in order. -/
def listingCallDays (bucket : Nat → List PcapObject)
    (fromT toT : Nat) : List Nat :=
  (listRecFuel bucket toT fromT (fuelFor fromT toT)).2

theorem startOfNextDay_div (fromT : Nat) :
    startOfNextDay fromT / 1440 = fromT / 1440 + 1 := by
  unfold startOfNextDay
  rw [Nat.mul_div_cancel _ (by norm_num : (0:Nat) < 1440)]

theorem startOfNextDay_gt (fromT : Nat) : fromT < startOfNextDay fromT := by
  unfold startOfNextDay
  omega

theorem fuelFor_startOfNextDay (fromT toT : Nat) :
    fuelFor (startOfNextDay fromT) toT = toT / 1440 + 1 - (fromT / 1440 + 1) := by
  rw [fuelFor, startOfNextDay_div]

/-- With `to < from` the lister returns immediately: no objects, no
listing calls, whatever the fuel. -/
theorem listRecFuel_of_lt (bucket : Nat → List PcapObject) (toT fromT : Nat)
    (h : toT < fromT) (fuel : Nat) :
    listRecFuel bucket toT fromT fuel = ([], []) := by
  cases fuel with
  | zero => rfl
  | succ n => simp [listRecFuel, h]

/-- Membership in the result of the lister, characterised per recursion
level: an object is returned iff it is listed under its own day
prefix, its timestamp is strictly below `to`, and either it lies on
the own day of `from` strictly after `from`, or on a later day strictly
after the midnight of that day (the recursion compares against the day
cursor, not the original `from`). -/
theorem mem_listRecFuel (bucket : Nat → List PcapObject)
    (hwf : ∀ d o, o ∈ bucket d → o.ts / 1440 = d)
    (toT : Nat) (o : PcapObject) :
    ∀ fuel fromT, fuelFor fromT toT ≤ fuel →
      (o ∈ (listRecFuel bucket toT fromT fuel).1 ↔
        (o ∈ bucket (o.ts / 1440) ∧ o.ts < toT ∧
          ((o.ts / 1440 = fromT / 1440 ∧ fromT < o.ts) ∨
           (fromT / 1440 < o.ts / 1440 ∧ (o.ts / 1440) * 1440 < o.ts)))) := by
  intro fuel
  induction fuel with
  | zero =>
    intro fromT hfuel
    simp only [listRecFuel, List.not_mem_nil, false_iff]
    rintro ⟨-, hlt, hcase⟩
    simp only [fuelFor] at hfuel
    rcases hcase with ⟨h1, h2⟩ | ⟨h1, h2⟩ <;> omega
  | succ fuel ih =>
    intro fromT hfuel
    by_cases hft : toT < fromT
    · rw [listRecFuel_of_lt bucket toT fromT hft]
      simp only [List.not_mem_nil, false_iff]
      rintro ⟨-, hlt, hcase⟩
      rcases hcase with ⟨h1, h2⟩ | ⟨h1, h2⟩ <;> omega
    · simp only [listRecFuel, if_neg hft, List.mem_append, List.mem_filter,
        isInRange, Bool.and_eq_true, decide_eq_true_eq]
      rw [ih (startOfNextDay fromT)
        (by rw [fuelFor_startOfNextDay]; simp only [fuelFor] at hfuel; omega)]
      have hsoddiv := startOfNextDay_div fromT
      have hsod : startOfNextDay fromT = (fromT / 1440 + 1) * 1440 := rfl
      simp only [hsoddiv, hsod]
      constructor
      · rintro (⟨hmem, hgt, hlt⟩ | ⟨hmem, hlt, hcase⟩)
        · have hd := hwf _ _ hmem
          refine ⟨by rwa [hd], hlt, Or.inl ⟨hd, hgt⟩⟩
        · refine ⟨hmem, hlt, Or.inr ?_⟩
          rcases hcase with ⟨h1, h2⟩ | ⟨h1, h2⟩ <;>
            constructor <;> omega
      · rintro ⟨hmem, hlt, hcase⟩
        rcases hcase with ⟨h1, h2⟩ | ⟨h1, h2⟩
        · exact Or.inl ⟨by rwa [h1] at hmem, h2, hlt⟩
        · refine Or.inr ⟨hmem, hlt, ?_⟩
          by_cases heq : o.ts / 1440 = fromT / 1440 + 1
          · exact Or.inl ⟨by omega, by omega⟩
          · exact Or.inr ⟨by omega, h2⟩

/-- Number of listing calls: one per calendar day from the day of `from` through the day of `to`, provided `from ≤ to` and the fuel suffices. -/
theorem listRecFuel_calls (bucket : Nat → List PcapObject) (toT : Nat) :
    ∀ fuel fromT, fromT ≤ toT → fuelFor fromT toT ≤ fuel →
      ((listRecFuel bucket toT fromT fuel).2).length
        = toT / 1440 - fromT / 1440 + 1 := by
  intro fuel
  induction fuel with
  | zero =>
    intro fromT hle hfuel
    simp only [fuelFor] at hfuel
    omega
  | succ fuel ih =>
    intro fromT hle hfuel
    have hft : ¬ toT < fromT := by omega
    simp only [listRecFuel, if_neg hft, List.length_cons]
    by_cases hnext : startOfNextDay fromT ≤ toT
    · rw [ih (startOfNextDay fromT) hnext
        (by rw [fuelFor_startOfNextDay]; simp only [fuelFor] at hfuel; omega)]
      rw [startOfNextDay_div]
      have hd : fromT / 1440 < toT / 1440 := by
        have := startOfNextDay_div fromT
        have hx : startOfNextDay fromT / 1440 ≤ toT / 1440 := by
          exact Nat.div_le_div_right hnext
        omega
      omega
    · rw [listRecFuel_of_lt bucket toT (startOfNextDay fromT) (by omega)]
      simp only [List.length_nil]
      have hsod : startOfNextDay fromT = (fromT / 1440 + 1) * 1440 := rfl
      rw [hsod] at hnext
      omega

/-- When `from ≤ to` the first listing call is for the own day of `from`
prefix. -/
theorem listingCallDays_head (bucket : Nat → List PcapObject)
    (fromT toT : Nat) (h : fromT ≤ toT) :
    ∃ rest, listingCallDays bucket fromT toT = fromT / 1440 :: rest := by
  have hfuel : ∃ k, fuelFor fromT toT = k + 1 := by
    simp only [fuelFor]
    have : fromT / 1440 ≤ toT / 1440 := by omega
    exact ⟨toT / 1440 - fromT / 1440, by omega⟩
  obtain ⟨k, hk⟩ := hfuel
  refine ⟨(listRecFuel bucket toT (startOfNextDay fromT) k).2, ?_⟩
  simp only [listingCallDays, hk, listRecFuel, if_neg (by omega : ¬ toT < fromT)]

/-- A concrete backend used for counterexamples and witnesses: day 1
holds one object keyed exactly at the midnight of that day (`ts = 1440`,
key `1970/01/02/00/00`) and one keyed at 01:00 (`ts = 1500`). -/
def bucket1 : Nat → List PcapObject :=
  fun d => if d = 1 then [⟨1440, 5⟩, ⟨1500, 3⟩] else []

theorem bucket1_wf : ∀ d o, o ∈ bucket1 d → o.ts / 1440 = d := by
  intro d o h
  unfold bucket1 at h
  split at h
  next hd =>
    subst hd
    simp only [List.mem_cons, List.not_mem_nil, or_false] at h
    rcases h with rfl | rfl <;> decide
  next => exact absurd h (List.not_mem_nil o)

/-- C1 counterexample: with the valid range `from = 10 < to = 2000` and
the prefix-consistent backend `bucket1`, the object keyed exactly at the
midnight of day 1 (`ts = 1440`) has `from < 1440 < to`, yet the lister
does not return it: the second level of the recursion compares against the
day cursor `1440` itself, and the comparison is strict. -/
theorem c1_counterexample :
    (∀ d o, o ∈ bucket1 d → o.ts / 1440 = d) ∧
    (10:Nat) < 2000 ∧
    PcapObject.mk 1440 5 ∈ bucket1 1 ∧
    (10:Nat) < 1440 ∧ (1440:Nat) < 2000 ∧
    PcapObject.mk 1440 5 ∉ getListOfAllPcapFilesOnS3Recursive bucket1 10 2000 :=
  ⟨bucket1_wf, by norm_num, by decide, by norm_num, by norm_num, by decide⟩

/-- C1 (amended): for a valid range `from < to` over a
prefix-consistent backend, the lister returns exactly the objects whose
embedded timestamp `t` satisfies `from < t < to`, EXCEPT that an object
whose timestamp falls exactly on the midnight of a UTC day later than the day of `from` (`t % 1440 = 0` with `t / 1440 ≠ from / 1440`) is dropped,
because the recursion replaces `from` by the midnight of that day and
`isInRange` is strict. -/
theorem c1_amended (bucket : Nat → List PcapObject)
    (hwf : ∀ d o, o ∈ bucket d → o.ts / 1440 = d)
    (fromT toT : Nat) (_hrange : fromT < toT) (o : PcapObject) :
    o ∈ getListOfAllPcapFilesOnS3Recursive bucket fromT toT ↔
      (o ∈ bucket (o.ts / 1440) ∧ fromT < o.ts ∧ o.ts < toT ∧
        (o.ts / 1440 = fromT / 1440 ∨ o.ts % 1440 ≠ 0)) := by
  rw [getListOfAllPcapFilesOnS3Recursive,
    mem_listRecFuel bucket hwf toT o (fuelFor fromT toT) fromT le_rfl]
  constructor
  · rintro ⟨hmem, hlt, hcase⟩
    rcases hcase with ⟨h1, h2⟩ | ⟨h1, h2⟩
    · exact ⟨hmem, h2, hlt, Or.inl h1⟩
    · exact ⟨hmem, by omega, hlt, Or.inr (by omega)⟩
  · rintro ⟨hmem, hgt, hlt, hcase⟩
    refine ⟨hmem, hlt, ?_⟩
    by_cases hd : o.ts / 1440 = fromT / 1440
    · exact Or.inl ⟨hd, hgt⟩
    · rcases hcase with h | h
      · exact absurd h hd
      · exact Or.inr ⟨by omega, by omega⟩

/-- Witness for C1 (amended), on the object at 01:00 of day 1, which
the lister does return. -/
theorem c1_witness :
    PcapObject.mk 1500 3 ∈ getListOfAllPcapFilesOnS3Recursive bucket1 10 2000 ↔
      (PcapObject.mk 1500 3 ∈ bucket1 (1500 / 1440) ∧ 10 < 1500 ∧ 1500 < 2000 ∧
        (1500 / 1440 = 10 / 1440 ∨ 1500 % 1440 ≠ 0)) :=
  c1_amended bucket1 bucket1_wf 10 2000 (by norm_num) ⟨1500, 3⟩

/-- C2 counterexample: with `from = to = 1500` (so `from ≥ to`) the
lister still issues one backend listing call — the early-return guard
at index.js:347 is the strict `from > to`, so the equal-bounds range is
not caught. -/
theorem c2_counterexample :
    (1500:Nat) ≤ 1500 ∧ (listingCallDays bucket1 1500 1500).length = 1 :=
  ⟨le_refl 1500, by decide⟩

/-- C2 (amended): an inverted range (`from > to`) yields an empty
result with zero backend listing calls; an equal range (`from = to`)
also yields an empty result but issues exactly one listing call (for the day prefix of `from`), whose output is entirely filtered away. -/
theorem c2_amended (bucket : Nat → List PcapObject) (fromT toT : Nat)
    (h : toT ≤ fromT) :
    getListOfAllPcapFilesOnS3Recursive bucket fromT toT = [] ∧
    (listingCallDays bucket fromT toT).length
      = if toT < fromT then 0 else 1 := by
  by_cases hlt : toT < fromT
  · rw [getListOfAllPcapFilesOnS3Recursive, listingCallDays,
      listRecFuel_of_lt bucket toT fromT hlt]
    simp [hlt]
  · have heq : toT = fromT := by omega
    subst heq
    have hfuel : fuelFor toT toT = 1 := by
      simp only [fuelFor]; omega
    have hfil : (bucket (toT / 1440)).filter
        (fun o => isInRange toT toT o.ts) = [] := by
      rw [List.filter_eq_nil_iff]
      intro o _
      simp only [isInRange, Bool.and_eq_true, decide_eq_true_eq, not_and]
      omega
    constructor
    · rw [getListOfAllPcapFilesOnS3Recursive, hfuel]
      simp only [listRecFuel, lt_self_iff_false, if_false, hfil,
        List.nil_append]
    · rw [listingCallDays, hfuel]
      simp only [listRecFuel, lt_self_iff_false, if_false, hlt,
        List.length_cons, List.length_nil, if_neg]

/-- Witness for C2 (amended) at the equal range `from = to = 1500`. -/
theorem c2_witness :
    getListOfAllPcapFilesOnS3Recursive bucket1 1500 1500 = [] ∧
    (listingCallDays bucket1 1500 1500).length
      = if (1500:Nat) < 1500 then 0 else 1 :=
  c2_amended bucket1 1500 1500 (le_refl 1500)

/-- C3: for a valid range `from < to`, the lister issues exactly one
day-prefix listing call per UTC calendar day spanned by the range,
i.e. `to / 1440 - from / 1440 + 1` calls (a range inside a single day
gives exactly one call); the recursion is total because the day cursor
advances one day per step until it exceeds `to` (embodied by the
sufficient structural fuel `fuelFor`). -/
theorem c3_listing_calls (bucket : Nat → List PcapObject) (fromT toT : Nat)
    (h : fromT < toT) :
    (listingCallDays bucket fromT toT).length
      = toT / 1440 - fromT / 1440 + 1 :=
  listRecFuel_calls bucket toT (fuelFor fromT toT) fromT (le_of_lt h) le_rfl

/-- Witness for C3: the two-day range `[10, 2000]` issues exactly two
listing calls. -/
theorem c3_witness :
    (listingCallDays bucket1 10 2000).length = 2000 / 1440 - 10 / 1440 + 1 :=
  c3_listing_calls bucket1 10 2000 (by norm_num)

/-- Gregorian civil date from a count of days since 1970-01-01 (UTC).
Embeds the calendar arithmetic behind date-fns `format` (the program
pins `TZ = UTC`, index.js:3), via the standard era/day-of-era
decomposition. -/
def civilFromDays (z0 : Nat) : Nat × Nat × Nat :=
  let z := z0 + 719468
  let era := z / 146097
  let doe := z % 146097
  let yoe := (doe - doe / 1460 + doe / 36524 - doe / 146096) / 365
  let y := yoe + era * 400
  let doy := doe - (365 * yoe + yoe / 4 - yoe / 100)
  let mp := (5 * doy + 2) / 153
  let d := doy - (153 * mp + 2) / 5 + 1
  let m := if mp < 10 then mp + 3 else mp - 9
  (if m ≤ 2 then y + 1 else y, m, d)

/-- Two-digit zero padding, as date-fns `MM`/`dd`/`HH`/`mm`. -/
def pad2 (n : Nat) : String :=
  if n < 10 then "0" ++ toString n else toString n

/-- index.js:96 date-fns `format` with the literal-quoted pattern producing `yyyy-MM-dd HHhMMm` on an
instant in minutes since the epoch (years in scope are four-digit, so
`yyyy` needs no extra padding). -/
def formatTimestamp (t : Nat) : String :=
  let days := t / 1440
  let ymd := civilFromDays days
  let minOfDay := t % 1440
  toString ymd.1 ++ "-" ++ pad2 ymd.2.1 ++ "-" ++ pad2 ymd.2.2 ++ " " ++
    pad2 (minOfDay / 60) ++ "h" ++ pad2 (minOfDay % 60) ++ "m"

/-- index.js:95-106 `generateFilename`: range-only name when there are
no filter ids or more than five; otherwise the ids are appended, the
last one after " and " (JS `allIds.pop()` takes the last element). -/
def generateFilename (fromT toT : Nat)
    (iccIds simIds ips : List String) : String :=
  let name := "Onomondo traffic from " ++ formatTimestamp fromT ++
    " to " ++ formatTimestamp toT
  let allIds := iccIds ++ simIds ++ ips
  if allIds.length = 0 ∨ 5 < allIds.length then name ++ ".pcap"
  else
    match allIds.getLast? with
    | none => name ++ ".pcap"
    | some lastId =>
      if allIds.length = 1 then name ++ " for " ++ lastId ++ ".pcap"
      else name ++ " for " ++ String.intercalate ", " allIds.dropLast ++
        " and " ++ lastId ++ ".pcap"

/-- One progress line of the sequential downloader
(index.js:206-221 `downloadAllPcapFilesOnS3`, identically 178-193 for
blob storage): after adding the size of the current object it logs
`[index+1/totalFiles (downloadedSize/totalSize)] (file.Key)`. `key` is
the embedded timestamp of the downloaded object, standing for its storage
key, so the report sequence also records the download order. -/
structure ProgressReport where
  fileIndex : Nat
  totalFiles : Nat
  downloadedSize : Nat
  totalSize : Nat
  key : Nat
  deriving DecidableEq, Repr

/-- The loop body of the downloader: objects are fetched one at a time, in
listing order, each emitting one cumulative progress report. -/
def downloadLoop (totalFiles totalSize : Nat) :
    Nat → Nat → List PcapObject → List ProgressReport
  | _, _, [] => []
  | i, acc, f :: rest =>
    ⟨i + 1, totalFiles, acc + f.size, totalSize, f.ts⟩ ::
      downloadLoop totalFiles totalSize (i + 1) (acc + f.size) rest

/-- index.js:206-221 `downloadAllPcapFilesOnS3`: sequential downloads
with cumulative progress over the listed objects. -/
def downloadAllPcapFilesOnS3 (files : List PcapObject) : List ProgressReport :=
  downloadLoop files.length ((files.map PcapObject.size).sum) 0 0 files

/-- Sum of the first `k` object sizes (the cumulative byte counter of the downloader after `k` objects). -/
def sizesTake (files : List PcapObject) (k : Nat) : Nat :=
  ((files.map PcapObject.size).take k).sum

theorem downloadLoop_get (totalFiles totalSize : Nat) :
    ∀ (l : List PcapObject) (i acc k : Nat) (f : PcapObject),
      l[k]? = some f →
      (downloadLoop totalFiles totalSize i acc l)[k]? =
        some ⟨i + k + 1, totalFiles, acc + sizesTake l (k + 1), totalSize, f.ts⟩ := by
  intro l
  induction l with
  | nil => intro i acc k f hf; simp at hf
  | cons f0 rest ih =>
    intro i acc k f hf
    cases k with
    | zero =>
      simp only [List.getElem?_cons_zero, Option.some_inj] at hf
      subst hf
      simp [downloadLoop, sizesTake]
    | succ k =>
      simp only [List.getElem?_cons_succ] at hf
      have hrec := ih (i + 1) (acc + f0.size) k f hf
      rw [downloadLoop]
      rw [List.getElem?_cons_succ, hrec]
      simp only [Option.some_inj, sizesTake, List.map_cons,
        List.take_succ_cons, List.sum_cons, ProgressReport.mk.injEq,
        true_and, and_true]
      omega

/-- The two objects of the C8 scenario: sizes 100 and 200 bytes, keyed at
2020-12-20 05:30 and 06:15 UTC. -/
def c8files : List PcapObject :=
  [⟨18616 * 1440 + 330, 100⟩, ⟨18616 * 1440 + 375, 200⟩]

/-- C8: the downloader fetches sequentially in listing order; its k-th
(0-based) progress report shows file `k+1` of `n` and cumulative bytes
`s₁+…+s_{k+1}` of the total, and carries the key of the k-th listed object.
In the scenario with sizes 100 and 200 the reports are `1/2 (100/300)`
then `2/2 (300/300)`, and with no filters supplied the final name is
the range-only `Onomondo traffic from 2020-12-20 05h00m to 2020-12-20
07h30m.pcap`, with no identifier suffix. -/
theorem c8_download_progress :
    (∀ (files : List PcapObject) (k : Nat) (f : PcapObject),
      files[k]? = some f →
      (downloadAllPcapFilesOnS3 files)[k]? =
        some ⟨k + 1, files.length, sizesTake files (k + 1),
          (files.map PcapObject.size).sum, f.ts⟩) ∧
    downloadAllPcapFilesOnS3 c8files =
      [⟨1, 2, 100, 300, 18616 * 1440 + 330⟩,
       ⟨2, 2, 300, 300, 18616 * 1440 + 375⟩] ∧
    generateFilename (18616 * 1440 + 300) (18616 * 1440 + 450) [] [] [] =
      "Onomondo traffic from 2020-12-20 05h00m to 2020-12-20 07h30m.pcap" := by
  refine ⟨?_, by decide, by decide⟩
  intro files k f hf
  have := downloadLoop_get files.length ((files.map PcapObject.size).sum)
    files 0 0 k f hf
  simpa [downloadAllPcapFilesOnS3] using this

/-- Witness for C8 at the first object of the scenario. -/
theorem c8_witness :
    (downloadAllPcapFilesOnS3 c8files)[0]? =
      some ⟨0 + 1, c8files.length, sizesTake c8files (0 + 1),
        (c8files.map PcapObject.size).sum, (18616 * 1440 + 330 : Nat)⟩ :=
  c8_download_progress.1 c8files 0 ⟨18616 * 1440 + 330, 100⟩ (by decide)

/-- A scalar JavaScript value as it occurs among the CLI/config
parameters (minimist and the parsed JSON config produce strings,
numbers, booleans, or nothing). -/
inductive JScalar where
  | undef
  | str (s : String)
  | num (n : Int)
  | boolv (b : Bool)
  deriving DecidableEq, Repr

/-- A parameter value: a scalar or an array of scalars. -/
inductive JVal where
  | scalar (v : JScalar)
  | arr (xs : List JScalar)
  deriving DecidableEq, Repr

/-- JavaScript truthiness of a scalar (the double-negation test): `undefined`, the empty string, `0` and `false` are falsy. -/
def truthyS : JScalar → Bool
  | JScalar.undef => false
  | JScalar.str s => !(s == "")
  | JScalar.num n => !(n == 0)
  | JScalar.boolv b => b

/-- JavaScript truthiness of a parameter value (arrays are objects,
hence truthy). -/
def truthy : JVal → Bool
  | JVal.scalar v => truthyS v
  | JVal.arr _ => true

/-- `Array.isArray`. -/
def isArrayV : JVal → Bool
  | JVal.scalar _ => false
  | JVal.arr _ => true

/-- JS `[].concat(x)`: an array contributes its elements, anything
else (including `undefined`) contributes itself as one element. -/
def concatElems : JVal → List JScalar
  | JVal.scalar v => [v]
  | JVal.arr xs => xs

/-- JS `[...new Set(res)]`: deduplication keeping the first occurrence
of each element, in order. -/
def dedupFirst {α : Type} [DecidableEq α] (l : List α) : List α :=
  l.foldl (fun acc x => if x ∈ acc then acc else acc ++ [x]) []

theorem dedupFirst_loop_mem {α : Type} [DecidableEq α] :
    ∀ (l acc : List α) (a : α),
      (a ∈ l.foldl (fun acc x => if x ∈ acc then acc else acc ++ [x]) acc ↔
        a ∈ acc ∨ a ∈ l) := by
  intro l
  induction l with
  | nil => intro acc a; simp
  | cons x xs ih =>
    intro acc a
    simp only [List.foldl_cons]
    by_cases hx : x ∈ acc
    · rw [if_pos hx, ih]
      constructor
      · rintro (h | h)
        · exact Or.inl h
        · exact Or.inr (List.mem_cons_of_mem x h)
      · rintro (h | h)
        · exact Or.inl h
        · rcases List.mem_cons.mp h with rfl | h
          · exact Or.inl hx
          · exact Or.inr h
    · rw [if_neg hx, ih]
      simp only [List.mem_append, List.mem_singleton, List.mem_cons]
      tauto

theorem dedupFirst_mem {α : Type} [DecidableEq α] (l : List α) (a : α) :
    a ∈ dedupFirst l ↔ a ∈ l := by
  rw [dedupFirst, dedupFirst_loop_mem]
  simp

theorem dedupFirst_loop_nodup {α : Type} [DecidableEq α] :
    ∀ (l acc : List α), acc.Nodup →
      (l.foldl (fun acc x => if x ∈ acc then acc else acc ++ [x]) acc).Nodup := by
  intro l
  induction l with
  | nil => intro acc h; simpa using h
  | cons x xs ih =>
    intro acc h
    simp only [List.foldl_cons]
    by_cases hx : x ∈ acc
    · rw [if_pos hx]; exact ih acc h
    · rw [if_neg hx]
      refine ih (acc ++ [x]) ?_
      simp [List.nodup_append, h, hx]

theorem dedupFirst_nodup {α : Type} [DecidableEq α] (l : List α) :
    (dedupFirst l).Nodup :=
  dedupFirst_loop_nodup l [] List.nodup_nil

/-- index.js:54-64 `getParam`: scalar parameters resolve as
`conf[param] || argv[param]` (config wins unless its value is falsy);
if either side is an array, both sides are concatenated (CLI first),
falsy entries — in particular `undefined` from a missing side — are
removed, and duplicates are removed keeping first occurrences. -/
def getParam (argv conf : String → JVal) (param : String) : JVal :=
  let isArray := isArrayV (argv param) || isArrayV (conf param)
  if !isArray then
    (if truthy (conf param) then conf param else argv param)
  else
    JVal.arr (dedupFirst
      ((concatElems (argv param) ++ concatElems (conf param)).filter truthyS))

/-- C10: for a scalar parameter present in both sources, the
config-file value wins and the command-line value is ignored, except
that a falsy config value falls back to the command line; for
array-valued parameters the two sides are concatenated and
deduplicated (membership is exactly the truthy union of the elements of both sides, and the result has no duplicates). -/
theorem c10_getParam (argv conf : String → JVal) (param : String) :
    (isArrayV (argv param) = false → isArrayV (conf param) = false →
      truthy (conf param) = true → getParam argv conf param = conf param) ∧
    (isArrayV (argv param) = false → isArrayV (conf param) = false →
      truthy (conf param) = false → getParam argv conf param = argv param) ∧
    ((isArrayV (argv param) = true ∨ isArrayV (conf param) = true) →
      ∃ xs, getParam argv conf param = JVal.arr xs ∧ xs.Nodup ∧
        ∀ v, v ∈ xs ↔ (truthyS v = true ∧
          (v ∈ concatElems (argv param) ∨ v ∈ concatElems (conf param)))) := by
  refine ⟨?_, ?_, ?_⟩
  · intro ha hc ht
    rw [getParam]
    simp [ha, hc, ht]
  · intro ha hc ht
    rw [getParam]
    simp [ha, hc, ht]
  · intro harr
    rw [getParam]
    have : (isArrayV (argv param) || isArrayV (conf param)) = true := by
      rcases harr with h | h <;> simp [h]
    simp only [this, Bool.not_true, Bool.false_eq_true, if_false]
    refine ⟨_, rfl, dedupFirst_nodup _, ?_⟩
    intro v
    rw [dedupFirst_mem, List.mem_filter, List.mem_append]
    tauto

/-- Witness for C10: a scalar key where the config value wins, and an
array key where CLI and config entries are merged, falsy entries
dropped, duplicates removed. -/
theorem c10_witness :
    (getParam
        (fun k => if k = "ip" then JVal.arr [JScalar.str "a", JScalar.str "b"]
          else JVal.scalar (JScalar.str "cli"))
        (fun k => if k = "ip"
          then JVal.arr [JScalar.str "b", JScalar.str "", JScalar.str "c"]
          else JVal.scalar (JScalar.str "cfg"))
        "token"
      = JVal.scalar (JScalar.str "cfg")) ∧
    (∃ xs,
      getParam
        (fun k => if k = "ip" then JVal.arr [JScalar.str "a", JScalar.str "b"]
          else JVal.scalar (JScalar.str "cli"))
        (fun k => if k = "ip"
          then JVal.arr [JScalar.str "b", JScalar.str "", JScalar.str "c"]
          else JVal.scalar (JScalar.str "cfg"))
        "ip"
      = JVal.arr xs ∧ xs.Nodup ∧
      ∀ v, v ∈ xs ↔ (truthyS v = true ∧
        (v ∈ concatElems (JVal.arr [JScalar.str "a", JScalar.str "b"]) ∨
         v ∈ concatElems
           (JVal.arr [JScalar.str "b", JScalar.str "", JScalar.str "c"])))) := by
  constructor
  · exact (c10_getParam _ _ "token").1 (by decide) (by decide) (by decide)
  · have h := (c10_getParam
      (fun k => if k = "ip" then JVal.arr [JScalar.str "a", JScalar.str "b"]
        else JVal.scalar (JScalar.str "cli"))
      (fun k => if k = "ip"
        then JVal.arr [JScalar.str "b", JScalar.str "", JScalar.str "c"]
        else JVal.scalar (JScalar.str "cfg"))
      "ip").2.2 (Or.inl (by decide))
    simpa using h

/-- The parameters of the run after `getParam` resolution (index.js:29-43).
`fromT`/`toT` are the parsed instants in minutes; `fromValid`/`toValid`
model date-fns `isValid` on them.  Credential parameters are modelled
by their truthiness (presence). -/
structure Params where
  fromT : Nat
  toT : Nat
  fromValid : Bool
  toValid : Bool
  iccIds : List String
  simIds : List String
  ips : List String
  token : Bool
  s3Bucket : Bool
  s3Region : Bool
  awsAccessKeyId : Bool
  awsSecretAccessKey : Bool
  blobStorageSasUri : Bool
  blobStorageConnectionString : Bool
  blobStorageContainerName : Bool
  deriving DecidableEq, Repr

/-- index.js:46. -/
def isUsingBlobStorage (p : Params) : Bool :=
  p.blobStorageSasUri || p.blobStorageConnectionString ||
    p.blobStorageContainerName

/-- index.js:47. -/
def hasAllBlobStorageParams (p : Params) : Bool :=
  (p.blobStorageSasUri || p.blobStorageConnectionString) &&
    p.blobStorageContainerName

/-- index.js:48. -/
def isUsingS3 (p : Params) : Bool :=
  p.s3Bucket || p.s3Region || p.awsAccessKeyId || p.awsSecretAccessKey

/-- index.js:49. -/
def hasAllS3Params (p : Params) : Bool :=
  p.s3Bucket && p.s3Region && p.awsAccessKeyId && p.awsSecretAccessKey

/-- index.js:50 `from && to && (isUsingBlobStorage || isUsingS3)`:
`from` and `to` are `Date` objects, which are always truthy in JS
(even `Invalid Date`), so only the backend disjunction remains. -/
def hasAllRequiredParams (p : Params) : Bool :=
  isUsingBlobStorage p || isUsingS3 p

/-- index.js:45 `isValid(from) && isValid(to)`. -/
def areDatesValid (p : Params) : Bool := p.fromValid && p.toValid

/-- index.js:51 `from < to`: comparisons against an invalid date (NaN)
are false. -/
def isRangeValid (p : Params) : Bool :=
  p.fromValid && p.toValid && decide (p.fromT < p.toT)

/-- index.js:44. -/
def hasTokenIfNeeded (p : Params) : Bool :=
  if 0 < p.iccIds.length + p.simIds.length then p.token else true

/-- The eager parameter validation (index.js:78-84), in source order:
the message of the first failing check, `none` when every check passes.
Each failure calls `exit` (print + `process.exit(1)`). -/
def validate (p : Params) : Option String :=
  if !hasAllRequiredParams p then
    some "Some parameters are missing."
  else if !areDatesValid p then
    some "The dates are not valid. Needs to be in a format like --from=2020-12-20T18:00:00Z"
  else if !isRangeValid p then
    some "\"from\" is after \"to\". Please correct this."
  else if !hasTokenIfNeeded p then
    some "If you specify either --simid or --iccid, then you also need to specify --token"
  else if isUsingS3 p && !hasAllS3Params p then
    some "If you use AWS S3, you need to specify all these parameters: --s3-bucket, --s3-region, --aws-access-key-id, --aws-secret-access-key"
  else if isUsingBlobStorage p && !hasAllBlobStorageParams p then
    some "If you use Azure Blob Storage, you need to specify one of these parameters: --blob-storage-sas-uri, --blob-storage-connection-string. And then this --blob-storage-container-name"
  else if !isUsingBlobStorage p && !isUsingS3 p then
    some "You need to either specify an AWS S3 or Azure Blob Storage configuration"
  else
    none

/-- Outcome of spawning an external tool: the `error` event of the child
(spawn failure, e.g. binary not found), or its `close` event carrying
the exit code. -/
inductive SpawnResult where
  | spawnError
  | exited (code : Nat)
  deriving DecidableEq, Repr

/-- The environment of the run: merge-engine availability (the
`mergeCapExists` probe, index.js:303-311), the objects of the two backends per day prefix, the identifier-lookup API, and the outcome of the
tshark and mergecap invocations. -/
structure Env where
  mergecapAvailable : Bool
  s3Objects : Nat → List PcapObject
  blobObjects : Nat → List PcapObject
  resolveIp : String → String
  tsharkResult : SpawnResult
  mergecapResult : SpawnResult

/-- Observable events of a run, in order: the mergecap probe, the npm
version check, identifier-lookup API calls, backend listing calls and
object downloads, external tool invocations, the final rename, scratch
removal, and process termination with an exit code (an unhandled
rejection from a spawn `error` terminates the process with a non-zero
code and runs no further statements). -/
inductive Event where
  | probeMergecap
  | versionCheck
  | apiResolve (id : String)
  | listS3 (day : Nat)
  | listBlob (day : Nat)
  | downloadS3 (ts : Nat)
  | downloadBlob (ts : Nat)
  | tsharkRun (ts : Nat)
  | mergecapRun
  | renameTo (name : String)
  | removeTmp
  | exited (code : Nat)
  deriving DecidableEq, Repr

/-- index.js:237-253: the global `ips` after `convertSimIdsIntoIps`
then `convertIccIdsIntoIps`: each resolved address is pushed, without
any deduplication, after the directly supplied addresses. -/
def finalIps (p : Params) (resolveIp : String → String) : List String :=
  p.ips ++ p.simIds.map resolveIp ++ p.iccIds.map resolveIp

/-- index.js:138-146: the events of the S3 phase — all listing calls of the
recursive lister, then one download per listed object, in listing
order. -/
def s3Trace (p : Params) (objects : Nat → List PcapObject) : List Event :=
  if isUsingS3 p then
    (listingCallDays objects p.fromT p.toT).map Event.listS3 ++
      (getListOfAllPcapFilesOnS3Recursive objects p.fromT p.toT).map
        (fun o => Event.downloadS3 o.ts)
  else []

/-- index.js:149-156: the events of the blob-storage phase. -/
def blobTrace (p : Params) (objects : Nat → List PcapObject) : List Event :=
  if isUsingBlobStorage p then
    (listingCallDays objects p.fromT p.toT).map Event.listBlob ++
      (getListOfAllPcapFilesOnS3Recursive objects p.fromT p.toT).map
        (fun o => Event.downloadBlob o.ts)
  else []

/-- index.js:135-156 `pcapFilesLocally`: assigned by the S3 phase, then
overwritten by the blob-storage phase when that runs too. -/
def localFiles (p : Params) (s3o blobo : Nat → List PcapObject) :
    List PcapObject :=
  if isUsingBlobStorage p then
    getListOfAllPcapFilesOnS3Recursive blobo p.fromT p.toT
  else if isUsingS3 p then
    getListOfAllPcapFilesOnS3Recursive s3o p.fromT p.toT
  else []

/-- index.js:164-175: the merge invocation and what follows it.
`mergePcapFiles` rejects only on the spawn `error` event; `close`
resolves whatever the exit code, then the output is renamed, the
scratch folder removed, and the process ends with status 0. -/
def mergeRest (mcr : SpawnResult) (finalName : String) : List Event :=
  match mcr with
  | SpawnResult.spawnError => [Event.mergecapRun, Event.exited 1]
  | SpawnResult.exited _ =>
    [Event.mergecapRun, Event.renameTo finalName, Event.removeTmp,
      Event.exited 0]

/-- index.js:158-175: optional tshark filtering (only when the address
filter is non-empty), then the merge tail.  `filterWithTshark` rejects
only on the spawn `error` event — which can fire only if there is a
file to filter — and `close` resolves whatever exit code tshark reports. -/
def tailTrace (tsr mcr : SpawnResult) (ips : List String)
    (files : List PcapObject) (finalName : String) : List Event :=
  if 0 < ips.length then
    match files, tsr with
    | f :: _, SpawnResult.spawnError =>
      [Event.tsharkRun f.ts, Event.exited 1]
    | _, _ =>
      (files.map fun o => Event.tsharkRun o.ts) ++ mergeRest mcr finalName
  else mergeRest mcr finalName

/-- index.js:120-156: version check, identifier resolution, and the two
backend phases — everything between the probe and the pipeline tail. -/
def preTrace (p : Params) (s3o blobo : Nat → List PcapObject) : List Event :=
  p.simIds.map Event.apiResolve ++ p.iccIds.map Event.apiResolve ++
    s3Trace p s3o ++ blobTrace p blobo

/-- index.js:108-176 `run` after the probe succeeded.  Note
`generateFilename` is computed at run start (index.js:109), before
identifier resolution, so the name uses the directly supplied ids. -/
def postProbeTrace (p : Params) (env : Env) : List Event :=
  Event.versionCheck ::
    (preTrace p env.s3Objects env.blobObjects ++
      tailTrace env.tsharkResult env.mergecapResult
        (finalIps p env.resolveIp)
        (localFiles p env.s3Objects env.blobObjects)
        (generateFilename p.fromT p.toT p.iccIds p.simIds p.ips))

/-- index.js:108-124 `run`: the mergecap probe is the first action; if
the probe fails, `exit` terminates with status 1 (and removes
nothing). -/
def runTrace (p : Params) (env : Env) : List Event :=
  Event.probeMergecap ::
    (if env.mergecapAvailable then postProbeTrace p env
     else [Event.exited 1])

/-- The whole process: eager validation (whose `exit` terminates with
status 1 — the scratch folder was already created at index.js:52 and is
not removed), then `run`. -/
def mainTrace (p : Params) (env : Env) : List Event :=
  match validate p with
  | some _ => [Event.exited 1]
  | none => runTrace p env

/-- Backend network events: listing calls and object downloads. -/
def isBackendEvent : Event → Bool
  | Event.listS3 _ => true
  | Event.listBlob _ => true
  | Event.downloadS3 _ => true
  | Event.downloadBlob _ => true
  | _ => false

/-- Events that can only be emitted by the pipeline tail or a
terminating `exit`. -/
def isPipelineEvent : Event → Bool
  | Event.tsharkRun _ => true
  | Event.mergecapRun => true
  | Event.renameTo _ => true
  | Event.removeTmp => true
  | Event.exited _ => true
  | _ => false

/-- What a passed validation guarantees about the parameters. -/
theorem validate_none_facts (p : Params) (h : validate p = none) :
    hasAllRequiredParams p = true ∧ areDatesValid p = true ∧
    p.fromT < p.toT ∧ hasTokenIfNeeded p = true ∧
    (isUsingS3 p = true → hasAllS3Params p = true) ∧
    (isUsingBlobStorage p = true → hasAllBlobStorageParams p = true) ∧
    (isUsingBlobStorage p = true ∨ isUsingS3 p = true) := by
  unfold validate at h
  split_ifs at h with h1 h2 h3 h4 h5 h6 h7
  any_goals simp at h
  simp only [Bool.not_eq_true', Bool.not_eq_false] at h1 h2 h3 h4
  have hrange : p.fromT < p.toT := by
    have := h3
    simp only [isRangeValid, Bool.and_eq_true, decide_eq_true_eq] at this
    exact this.2
  have hs3 : isUsingS3 p = true → hasAllS3Params p = true := by
    intro hu
    by_contra hcon
    simp only [Bool.not_eq_true] at hcon
    exact h5 (by simp [hu, hcon])
  have hblob : isUsingBlobStorage p = true → hasAllBlobStorageParams p = true := by
    intro hu
    by_contra hcon
    simp only [Bool.not_eq_true] at hcon
    exact h6 (by simp [hu, hcon])
  have hone : isUsingBlobStorage p = true ∨ isUsingS3 p = true := by
    have := h1
    simp only [hasAllRequiredParams, Bool.or_eq_true] at this
    exact this
  exact ⟨h1, h2, hrange, h4, hs3, hblob, hone⟩

/-- No pipeline-control event occurs between the version check and the
pipeline tail. -/
theorem preTrace_no_pipeline (p : Params) (s3o blobo : Nat → List PcapObject) :
    ∀ e ∈ preTrace p s3o blobo, isPipelineEvent e = false := by
  intro e he
  simp only [preTrace, List.mem_append] at he
  rcases he with ((h | h) | h) | h
  · obtain ⟨s, -, rfl⟩ := List.mem_map.mp h; rfl
  · obtain ⟨s, -, rfl⟩ := List.mem_map.mp h; rfl
  · rw [s3Trace] at h
    split at h
    · rcases List.mem_append.mp h with h | h
      · obtain ⟨d, -, rfl⟩ := List.mem_map.mp h; rfl
      · obtain ⟨o, -, rfl⟩ := List.mem_map.mp h; rfl
    · exact absurd h (List.not_mem_nil e)
  · rw [blobTrace] at h
    split at h
    · rcases List.mem_append.mp h with h | h
      · obtain ⟨d, -, rfl⟩ := List.mem_map.mp h; rfl
      · obtain ⟨o, -, rfl⟩ := List.mem_map.mp h; rfl
    · exact absurd h (List.not_mem_nil e)

theorem not_mem_preTrace (p : Params) (s3o blobo : Nat → List PcapObject)
    (e : Event) (he : isPipelineEvent e = true) :
    e ∉ preTrace p s3o blobo := by
  intro hmem
  have := preTrace_no_pipeline p s3o blobo e hmem
  rw [he] at this
  exact Bool.true_eq_false.mp this

/-- For pipeline-control events, membership in the whole run trace is
membership in the pipeline tail (when validation passed and the probe
succeeded). -/
theorem mem_runTail (p : Params) (env : Env) (e : Event)
    (he : isPipelineEvent e = true) (hv : validate p = none)
    (hm : env.mergecapAvailable = true) :
    (e ∈ mainTrace p env ↔
      e ∈ tailTrace env.tsharkResult env.mergecapResult
        (finalIps p env.resolveIp)
        (localFiles p env.s3Objects env.blobObjects)
        (generateFilename p.fromT p.toT p.iccIds p.simIds p.ips)) := by
  unfold mainTrace runTrace postProbeTrace
  rw [hv, hm]
  simp only [if_true, List.mem_cons, List.mem_append]
  constructor
  · rintro (rfl | rfl | h | h)
    · exact absurd he (by simp [isPipelineEvent])
    · exact absurd he (by simp [isPipelineEvent])
    · exact absurd h (not_mem_preTrace p _ _ e he)
    · exact h
  · intro h
    exact Or.inr (Or.inr (Or.inr h))

/-- The pipeline tail never removes the scratch folder on a failing
path, and removes it exactly on the path that ends with status 0. -/
theorem tailTrace_c4 (tsr mcr : SpawnResult) (ips : List String)
    (files : List PcapObject) (n : String) :
    (Event.exited 1 ∈ tailTrace tsr mcr ips files n →
      Event.removeTmp ∉ tailTrace tsr mcr ips files n) ∧
    (Event.removeTmp ∈ tailTrace tsr mcr ips files n →
      Event.exited 0 ∈ tailTrace tsr mcr ips files n ∧
        Event.exited 1 ∉ tailTrace tsr mcr ips files n) := by
  by_cases hips : 0 < ips.length <;>
    cases files <;> cases tsr <;> cases mcr <;>
      simp [tailTrace, mergeRest, hips]

/-- C4 counterexample: a fully valid configuration whose merge engine
is absent — the run terminates with status 1 and never removes the
scratch folder (the `exit` helper, index.js:380-385, only prints and
calls `process.exit(1)`; cleanup happens only at index.js:172 on the
success path). -/
def p4 : Params :=
  { fromT := 10, toT := 2000, fromValid := true, toValid := true,
    iccIds := [], simIds := [], ips := [], token := false,
    s3Bucket := true, s3Region := true, awsAccessKeyId := true,
    awsSecretAccessKey := true, blobStorageSasUri := false,
    blobStorageConnectionString := false,
    blobStorageContainerName := false }

def env4 : Env :=
  { mergecapAvailable := false, s3Objects := bucket1,
    blobObjects := fun _ => [], resolveIp := fun _ => "",
    tsharkResult := SpawnResult.exited 0,
    mergecapResult := SpawnResult.exited 0 }

theorem c4_counterexample :
    Event.exited 1 ∈ mainTrace p4 env4 ∧
    Event.removeTmp ∉ mainTrace p4 env4 := by
  decide

/-- C4 (amended): no error exit path removes the scratch directory —
a run that terminates with status 1 never emits the scratch removal,
and the scratch directory is removed exactly on the success path
(which terminates with status 0). -/
theorem c4_amended (p : Params) (env : Env) :
    (Event.exited 1 ∈ mainTrace p env →
      Event.removeTmp ∉ mainTrace p env) ∧
    (Event.removeTmp ∈ mainTrace p env →
      Event.exited 0 ∈ mainTrace p env ∧
        Event.exited 1 ∉ mainTrace p env) := by
  cases hv : validate p with
  | some msg =>
    unfold mainTrace
    rw [hv]
    simp
  | none =>
    cases hm : env.mergecapAvailable with
    | false =>
      unfold mainTrace runTrace
      rw [hv, hm]
      simp
    | true =>
      have h1 := mem_runTail p env (Event.exited 1) rfl hv hm
      have h0 := mem_runTail p env (Event.exited 0) rfl hv hm
      have hr := mem_runTail p env Event.removeTmp rfl hv hm
      rw [h1, h0, hr]
      exact tailTrace_c4 env.tsharkResult env.mergecapResult
        (finalIps p env.resolveIp)
        (localFiles p env.s3Objects env.blobObjects)
        (generateFilename p.fromT p.toT p.iccIds p.simIds p.ips)

/-- Witness for C4 (amended): applied to the failing probe run. -/
theorem c4_witness : Event.removeTmp ∉ mainTrace p4 env4 :=
  (c4_amended p4 env4).1 (by decide)

theorem tailTrace_tshark_exit_irrel (c : Nat) (mcr : SpawnResult)
    (ips : List String) (files : List PcapObject) (n : String) :
    tailTrace (SpawnResult.exited c) mcr ips files n =
      tailTrace (SpawnResult.exited 0) mcr ips files n := by
  cases files <;> rfl

theorem tailTrace_mergecap_exit_irrel (c : Nat) (tsr : SpawnResult)
    (ips : List String) (files : List PcapObject) (n : String) :
    tailTrace tsr (SpawnResult.exited c) ips files n =
      tailTrace tsr (SpawnResult.exited 0) ips files n := by
  cases files <;> cases tsr <;> rfl

/-- C5 counterexample: tshark exits with the non-zero status 2, yet the
run proceeds to the merge and rename and terminates with status 0 —
`filterWithTshark` (index.js:285-301) resolves on the `close` event
regardless of the exit code, as does `mergePcapFiles`
(index.js:255-272). -/
def p5 : Params :=
  { p4 with ips := ["100.64.1.2"] }

def env5 : Env :=
  { env4 with
    mergecapAvailable := true,
    tsharkResult := SpawnResult.exited 2 }

theorem c5_counterexample :
    env5.tsharkResult = SpawnResult.exited 2 ∧
    Event.tsharkRun 1500 ∈ mainTrace p5 env5 ∧
    Event.mergecapRun ∈ mainTrace p5 env5 ∧
    Event.renameTo
        "Onomondo traffic from 1970-01-01 00h10m to 1970-01-02 09h20m for 100.64.1.2.pcap"
      ∈ mainTrace p5 env5 ∧
    Event.exited 0 ∈ mainTrace p5 env5 ∧
    Event.exited 1 ∉ mainTrace p5 env5 := by
  decide

/-- A mergecap spawn failure makes the pipeline tail end in the
failing exit, with no rename and no scratch removal, whatever the
filtering did before it (if tshark aborted first, the same conclusion
already holds of that shorter tail). -/
theorem tailTrace_mergecap_spawn_abort (tsr : SpawnResult)
    (ips : List String) (files : List PcapObject) (n : String) :
    Event.exited 1 ∈ tailTrace tsr SpawnResult.spawnError ips files n ∧
    Event.removeTmp ∉ tailTrace tsr SpawnResult.spawnError ips files n ∧
    ∀ s, Event.renameTo s ∉ tailTrace tsr SpawnResult.spawnError ips files n := by
  by_cases hips : 0 < ips.length <;> cases files <;> cases tsr <;>
    simp [tailTrace, mergeRest, hips]

/-- C5 (amended): only a spawn failure of an external engine (the
child process `error` event, e.g. binary not found) aborts the run —
a tshark spawn failure stops the run before the merge and the rename,
and a mergecap spawn failure stops it before the rename, in both cases
with a non-zero exit and no scratch cleanup.  The exit statuses of the
tools are ignored entirely: the trace of the run is unchanged by the
exit code either engine reports, so a non-zero tool exit does not
abort the run. -/
theorem c5_amended :
    (∀ (p : Params) (env : Env), validate p = none →
      env.mergecapAvailable = true →
      env.tsharkResult = SpawnResult.spawnError →
      0 < (finalIps p env.resolveIp).length →
      localFiles p env.s3Objects env.blobObjects ≠ [] →
      (Event.exited 1 ∈ mainTrace p env ∧
       Event.mergecapRun ∉ mainTrace p env ∧
       Event.removeTmp ∉ mainTrace p env ∧
       ∀ s, Event.renameTo s ∉ mainTrace p env)) ∧
    (∀ (p : Params) (env : Env), validate p = none →
      env.mergecapAvailable = true →
      env.mergecapResult = SpawnResult.spawnError →
      (Event.exited 1 ∈ mainTrace p env ∧
       Event.removeTmp ∉ mainTrace p env ∧
       ∀ s, Event.renameTo s ∉ mainTrace p env)) ∧
    (∀ (p : Params) (avail : Bool) (s3o blobo : Nat → List PcapObject)
        (res : String → String) (tsr mcr : SpawnResult) (c : Nat),
      mainTrace p ⟨avail, s3o, blobo, res, SpawnResult.exited c, mcr⟩ =
        mainTrace p ⟨avail, s3o, blobo, res, SpawnResult.exited 0, mcr⟩ ∧
      mainTrace p ⟨avail, s3o, blobo, res, tsr, SpawnResult.exited c⟩ =
        mainTrace p ⟨avail, s3o, blobo, res, tsr, SpawnResult.exited 0⟩) := by
  refine ⟨?_, ?_, ?_⟩
  · intro p env hv hm hts hips hfiles
    have h1 := mem_runTail p env (Event.exited 1) rfl hv hm
    have h2 := mem_runTail p env Event.mergecapRun rfl hv hm
    have h3 := mem_runTail p env Event.removeTmp rfl hv hm
    rw [h1, h2, h3]
    cases hlf : localFiles p env.s3Objects env.blobObjects with
    | nil => exact absurd hlf hfiles
    | cons f rest =>
      rw [hts]
      refine ⟨?_, ?_, ?_, ?_⟩
      · simp [tailTrace, hips]
      · simp [tailTrace, hips]
      · simp [tailTrace, hips]
      · intro s
        rw [mem_runTail p env (Event.renameTo s) rfl hv hm, hlf, hts]
        simp [tailTrace, hips]
  · intro p env hv hm hmc
    have h1 := mem_runTail p env (Event.exited 1) rfl hv hm
    have h3 := mem_runTail p env Event.removeTmp rfl hv hm
    have habort := tailTrace_mergecap_spawn_abort env.tsharkResult
      (finalIps p env.resolveIp)
      (localFiles p env.s3Objects env.blobObjects)
      (generateFilename p.fromT p.toT p.iccIds p.simIds p.ips)
    refine ⟨?_, ?_, ?_⟩
    · rw [h1, hmc]
      exact habort.1
    · rw [h3, hmc]
      exact habort.2.1
    · intro s
      rw [mem_runTail p env (Event.renameTo s) rfl hv hm, hmc]
      exact habort.2.2 s
  · intro p avail s3o blobo res tsr mcr c
    constructor
    · unfold mainTrace runTrace postProbeTrace
      cases validate p with
      | some s => rfl
      | none =>
        cases avail with
        | false => rfl
        | true =>
          dsimp only
          rw [tailTrace_tshark_exit_irrel]
    · unfold mainTrace runTrace postProbeTrace
      cases validate p with
      | some s => rfl
      | none =>
        cases avail with
        | false => rfl
        | true =>
          dsimp only
          rw [tailTrace_mergecap_exit_irrel]

def env5spawn : Env :=
  { env5 with tsharkResult := SpawnResult.spawnError }

def env5merge : Env :=
  { env5 with mergecapResult := SpawnResult.spawnError }

/-- Witness for C5 (amended): a spawn failure of tshark aborts the run
before the merge, and a spawn failure of mergecap aborts it before the
scratch removal (and the rename). -/
theorem c5_witness :
    (Event.exited 1 ∈ mainTrace p5 env5spawn ∧
     Event.mergecapRun ∉ mainTrace p5 env5spawn) ∧
    (Event.exited 1 ∈ mainTrace p5 env5merge ∧
     Event.removeTmp ∉ mainTrace p5 env5merge) := by
  constructor
  · have h := c5_amended.1 p5 env5spawn (by decide) rfl rfl (by decide)
      (by decide)
    exact ⟨h.1, h.2.1⟩
  · have h := c5_amended.2.1 p5 env5merge (by decide) rfl rfl
    exact ⟨h.1, h.2.1⟩

/-- C6: in every run the mergecap probe is the very first event of
`run` — whenever a backend listing or download occurs in the trace,
the trace starts with the probe — and if the merge engine is absent
the run terminates without a single backend listing or download. -/
theorem c6_probe_first (p : Params) (env : Env) :
    (∀ e ∈ mainTrace p env, isBackendEvent e = true →
      ∃ rest, mainTrace p env = Event.probeMergecap :: rest) ∧
    (env.mergecapAvailable = false →
      ∀ e ∈ mainTrace p env, isBackendEvent e = false) := by
  cases hv : validate p with
  | some s =>
    unfold mainTrace
    rw [hv]
    constructor
    · intro e he hbe
      simp only [List.mem_singleton] at he
      subst he
      simp [isBackendEvent] at hbe
    · intro _ e he
      simp only [List.mem_singleton] at he
      subst he
      rfl
  | none =>
    unfold mainTrace runTrace
    rw [hv]
    constructor
    · intro e _ _
      exact ⟨_, rfl⟩
    · intro hm e he
      rw [hm] at he
      simp only [if_false, Bool.false_eq_true, List.mem_cons,
        List.mem_singleton, List.not_mem_nil, or_false] at he
      rcases he with rfl | rfl <;> rfl

/-- Witness for C6: in the C5 run (which does list from S3) the trace
starts with the probe. -/
theorem c6_witness :
    ∃ rest, mainTrace p5 env5 = Event.probeMergecap :: rest :=
  (c6_probe_first p5 env5).1 (Event.listS3 0) (by decide) rfl

/-- C7 counterexample: a configuration supplying the full credential
sets of BOTH backends passes validation (no check rejects it, index.js:78-84)
and the run then lists and downloads from both providers
(index.js:138-156). -/
def p7 : Params :=
  { p4 with blobStorageSasUri := true, blobStorageContainerName := true }

def env7 : Env :=
  { env4 with mergecapAvailable := true, blobObjects := bucket1 }

theorem c7_counterexample :
    hasAllS3Params p7 = true ∧ hasAllBlobStorageParams p7 = true ∧
    validate p7 = none ∧
    Event.listS3 0 ∈ mainTrace p7 env7 ∧
    Event.listBlob 0 ∈ mainTrace p7 env7 ∧
    Event.downloadS3 1500 ∈ mainTrace p7 env7 ∧
    Event.downloadBlob 1500 ∈ mainTrace p7 env7 := by
  decide

theorem isUsingS3_of_hasAll (p : Params) (h : hasAllS3Params p = true) :
    isUsingS3 p = true := by
  simp only [hasAllS3Params, Bool.and_eq_true] at h
  simp [isUsingS3, h.1.1.1]

theorem isUsingBlob_of_hasAll (p : Params)
    (h : hasAllBlobStorageParams p = true) :
    isUsingBlobStorage p = true := by
  simp only [hasAllBlobStorageParams, Bool.and_eq_true] at h
  simp [isUsingBlobStorage, h.2]

/-- C7 (amended): a partial credential set for either backend is a
configuration error raised before any network activity (the trace is
just the failing exit), but supplying BOTH full credential sets is NOT
rejected: the run proceeds and issues listing calls (and downloads)
against both providers — S3 first, blob storage second, with only the
blob-storage downloads feeding the rest of the pipeline. -/
theorem c7_amended :
    (∀ (p : Params) (env : Env), isUsingS3 p = true →
      hasAllS3Params p = false → mainTrace p env = [Event.exited 1]) ∧
    (∀ (p : Params) (env : Env), isUsingBlobStorage p = true →
      hasAllBlobStorageParams p = false →
      mainTrace p env = [Event.exited 1]) ∧
    (∀ (p : Params) (env : Env), validate p = none →
      env.mergecapAvailable = true →
      hasAllS3Params p = true → hasAllBlobStorageParams p = true →
      Event.listS3 (p.fromT / 1440) ∈ mainTrace p env ∧
      Event.listBlob (p.fromT / 1440) ∈ mainTrace p env) := by
  refine ⟨?_, ?_, ?_⟩
  · intro p env hu hpart
    cases hv : validate p with
    | some s => unfold mainTrace; rw [hv]
    | none =>
      have := (validate_none_facts p hv).2.2.2.2.1 hu
      rw [this] at hpart
      exact absurd hpart (by simp)
  · intro p env hu hpart
    cases hv : validate p with
    | some s => unfold mainTrace; rw [hv]
    | none =>
      have := (validate_none_facts p hv).2.2.2.2.2.1 hu
      rw [this] at hpart
      exact absurd hpart (by simp)
  · intro p env hv hm hs3 hblob
    have facts := validate_none_facts p hv
    have hle : p.fromT ≤ p.toT := le_of_lt facts.2.2.1
    have huseS3 := isUsingS3_of_hasAll p hs3
    have huseB := isUsingBlob_of_hasAll p hblob
    obtain ⟨restS, hdS⟩ := listingCallDays_head env.s3Objects p.fromT p.toT hle
    obtain ⟨restB, hdB⟩ := listingCallDays_head env.blobObjects p.fromT p.toT hle
    have hmemS : Event.listS3 (p.fromT / 1440) ∈ s3Trace p env.s3Objects := by
      rw [s3Trace, if_pos huseS3]
      refine List.mem_append_left _ ?_
      rw [hdS]
      exact List.mem_cons_self _ _
    have hmemB : Event.listBlob (p.fromT / 1440) ∈ blobTrace p env.blobObjects := by
      rw [blobTrace, if_pos huseB]
      refine List.mem_append_left _ ?_
      rw [hdB]
      exact List.mem_cons_self _ _
    have hpreS : Event.listS3 (p.fromT / 1440) ∈
        preTrace p env.s3Objects env.blobObjects := by
      rw [preTrace]
      exact List.mem_append_left _ (List.mem_append_right _ hmemS)
    have hpreB : Event.listBlob (p.fromT / 1440) ∈
        preTrace p env.s3Objects env.blobObjects := by
      rw [preTrace]
      exact List.mem_append_right _ hmemB
    unfold mainTrace runTrace postProbeTrace
    rw [hv, hm]
    simp only [if_true]
    constructor
    · exact List.mem_cons_of_mem _ (List.mem_cons_of_mem _
        (List.mem_append_left _ hpreS))
    · exact List.mem_cons_of_mem _ (List.mem_cons_of_mem _
        (List.mem_append_left _ hpreB))

/-- Witness for C7 (amended): the both-backends run of the
counterexample issues its first listing call to each provider. -/
theorem c7_witness :
    Event.listS3 (p7.fromT / 1440) ∈ mainTrace p7 env7 ∧
    Event.listBlob (p7.fromT / 1440) ∈ mainTrace p7 env7 :=
  c7_amended.2.2 p7 env7 (by decide) rfl (by decide) (by decide)

/-- C9 counterexample: one directly supplied address and one simid
resolving to the same address — `convertSimIdsIntoIps`
(index.js:237-244) pushes the resolved address without any
deduplication, so the final address filter contains a duplicate. -/
def p9 : Params :=
  { p4 with ips := ["100.64.0.1"], simIds := ["123"], token := true }

theorem c9_counterexample :
    finalIps p9 (fun _ => "100.64.0.1") = ["100.64.0.1", "100.64.0.1"] ∧
    ¬ (finalIps p9 (fun _ => "100.64.0.1")).Nodup := by
  decide

/-- C9 (amended): addresses resolved from identifiers are appended to
the address filter WITHOUT deduplication — each identifier contributes
exactly one entry, so the length of the filter is the sum of the supplied
and resolved counts, duplicates included.  Only the directly supplied
address list is deduplicated, by `getParam` at parse time. -/
theorem c9_amended :
    (∀ (p : Params) (resolveIp : String → String),
      (finalIps p resolveIp).length =
        p.ips.length + p.simIds.length + p.iccIds.length) ∧
    (∀ (argv conf : String → JVal) (param : String),
      (isArrayV (argv param) = true ∨ isArrayV (conf param) = true) →
      ∃ xs, getParam argv conf param = JVal.arr xs ∧ xs.Nodup) := by
  constructor
  · intro p r
    simp only [finalIps, List.length_append, List.length_map]
  · intro argv conf param harr
    rw [getParam]
    have harr2 : (isArrayV (argv param) || isArrayV (conf param)) = true := by
      rcases harr with h | h <;> simp [h]
    simp only [harr2, Bool.not_true, Bool.false_eq_true, if_false]
    exact ⟨_, rfl, dedupFirst_nodup _⟩

/-- Witness for C9 (amended) on the run of the counterexample. -/
theorem c9_witness :
    (finalIps p9 (fun _ => "100.64.0.1")).length =
      p9.ips.length + p9.simIds.length + p9.iccIds.length ∧
    ∃ xs, getParam (fun _ => JVal.arr [JScalar.str "100.64.0.1"])
        (fun _ => JVal.scalar JScalar.undef) "ip" = JVal.arr xs ∧
      xs.Nodup :=
  ⟨c9_amended.1 p9 (fun _ => "100.64.0.1"),
   c9_amended.2 (fun _ => JVal.arr [JScalar.str "100.64.0.1"])
     (fun _ => JVal.scalar JScalar.undef) "ip" (Or.inl rfl)⟩

end Onomondo
